import Mathlib

/-!
# Verification of the qiankun execution-context isolation subsystem

Shallow embedding of the sandbox layer of the repository:

* `src/src/sandbox/proxySandbox.ts` — the multi-instance `ProxySandbox`
  (its Proxy `set` / `get` / `deleteProperty` traps) and the legacy
  `SingularProxySandbox` (its `setTrap`, `setWindowProp`, `active`,
  `inactive`).
* `src/src/sandbox/index.ts` — `createSandboxContainer`'s `mount` /
  `unmount` orchestration of Freers and Rebuilders.
* `src/src/sandbox/patchers/dynamicAppend/forStrictSandbox.ts` —
  `patchDocumentCreateElement`, `patchStrictSandbox` and its `free` /
  `rebuild` closures.
* `src/unnamed/part_001` (the loader) — `getAppWrapperGetter`,
  `getRender`, `assertElementExist`.

Window objects are modelled as association lists from string property
keys to property descriptors; JS primitive values are the inductive
`JSVal`.  Symbol-keyed properties are outside the model (every claim is
about string keys).  Machine details that no claim depends on — the
`setCurrentRunningSandboxProxy` marking performed by the `get` trap and
the `nextTask` that clears it — are noted where they are omitted.
-/

/-- A JS primitive value as stored in a window property.  Function values
are not represented: `getTargetValue` (sandbox/common.ts) rebinds
function values to the raw window and is the identity on every
non-function value, so on this value type reads return the stored value
unchanged. -/
inductive JSVal where
  | undefined
  | null
  | boolean (b : Bool)
  | num (n : Int)
  | str (s : String)
  deriving DecidableEq, Repr

/-- A JS property descriptor.  `writable` holds the truthiness of the
descriptor's `writable` field (`false` for an accessor property, whose
descriptor has no `writable` field); `hasGetter` records whether the
descriptor has a `get` field (accessor property). -/
structure PropDesc where
  value : JSVal
  writable : Bool
  enumerable : Bool
  configurable : Bool
  hasGetter : Bool
  deriving DecidableEq, Repr

/-- Look up the value bound to key `p` (first occurrence). -/
def mapLookup {α : Type} : List (String × α) → String → Option α
  | [], _ => none
  | (q, v) :: rest, p => if q = p then some v else mapLookup rest p

/-- JS `Map.set` / own-property update: replace in place when the key is
present, append at the end otherwise (insertion order is preserved, as
for JS `Map` iteration and object key enumeration). -/
def mapSet {α : Type} : List (String × α) → String → α → List (String × α)
  | [], p, v => [(p, v)]
  | (q, u) :: rest, p, v => if q = p then (p, v) :: rest else (q, u) :: mapSet rest p v

/-- JS `delete obj[p]` / `Map.delete`: remove the binding of `p`. -/
def mapErase {α : Type} (m : List (String × α)) (p : String) : List (String × α) :=
  m.filter (fun e => ¬ e.1 = p)

/-- The keys of an association map, in order. -/
def mapKeys {α : Type} (m : List (String × α)) : List String :=
  m.map Prod.fst

@[simp] theorem mapLookup_nil {α : Type} (p : String) :
    mapLookup ([] : List (String × α)) p = none := rfl

@[simp] theorem mapLookup_cons {α : Type} (q : String) (v : α) (rest : List (String × α))
    (p : String) :
    mapLookup ((q, v) :: rest) p = if q = p then some v else mapLookup rest p := rfl

theorem mapLookup_mapSet_self {α : Type} (m : List (String × α)) (p : String) (v : α) :
    mapLookup (mapSet m p v) p = some v := by
  induction m with
  | nil => simp [mapSet]
  | cons e rest ih =>
    obtain ⟨q, u⟩ := e
    by_cases h : q = p
    · simp [mapSet, h]
    · simp [mapSet, h, ih]

theorem mapLookup_mapSet_ne {α : Type} (m : List (String × α)) (p q : String) (v : α)
    (h : q ≠ p) : mapLookup (mapSet m p v) q = mapLookup m q := by
  have hpq : ¬ p = q := fun hh => h hh.symm
  induction m with
  | nil => simp [mapSet, hpq]
  | cons e rest ih =>
    obtain ⟨k, u⟩ := e
    by_cases hk : k = p
    · subst hk
      simp [mapSet, hpq, h]
    · simp only [mapSet, if_neg hk, mapLookup_cons]
      by_cases hq : k = q <;> simp [hq, ih]

theorem mapErase_cons {α : Type} (q : String) (u : α) (rest : List (String × α))
    (p : String) :
    mapErase ((q, u) :: rest) p =
      if q = p then mapErase rest p else (q, u) :: mapErase rest p := by
  by_cases h : q = p <;> simp [mapErase, List.filter_cons, h]

theorem mapLookup_mapErase_self {α : Type} (m : List (String × α)) (p : String) :
    mapLookup (mapErase m p) p = none := by
  induction m with
  | nil => rfl
  | cons e rest ih =>
    obtain ⟨q, u⟩ := e
    rw [mapErase_cons]
    by_cases h : q = p
    · simpa [h] using ih
    · simpa [h] using ih

theorem mapLookup_mapErase_ne {α : Type} (m : List (String × α)) (p q : String)
    (h : q ≠ p) : mapLookup (mapErase m p) q = mapLookup m q := by
  induction m with
  | nil => rfl
  | cons e rest ih =>
    obtain ⟨k, u⟩ := e
    rw [mapErase_cons]
    by_cases hk : k = p
    · rw [if_pos hk, ih]
      have hq : ¬ k = q := fun hh => h (by rw [← hh, hk])
      simp [hq]
    · rw [if_neg hk]
      by_cases hq : k = q
      · simp [hq]
      · simp [hq, ih]

theorem mapLookup_eq_none_of_not_mem_keys {α : Type} (m : List (String × α)) (p : String)
    (h : p ∉ mapKeys m) : mapLookup m p = none := by
  induction m with
  | nil => rfl
  | cons e rest ih =>
    obtain ⟨q, u⟩ := e
    simp only [mapKeys, List.map_cons, List.mem_cons] at h
    push_neg at h
    have hq : ¬ q = p := fun hh => h.1 hh.symm
    simp [hq, ih (by simpa [mapKeys] using h.2)]

theorem not_mem_keys_of_mapLookup_eq_none {α : Type} (m : List (String × α)) (p : String)
    (h : mapLookup m p = none) : p ∉ mapKeys m := by
  induction m with
  | nil => simp [mapKeys]
  | cons e rest ih =>
    obtain ⟨q, u⟩ := e
    by_cases hq : q = p
    · simp [hq] at h
    · simp only [mapLookup_cons, if_neg hq] at h
      have hrest := ih h
      simp only [mapKeys, List.map_cons, List.mem_cons]
      push_neg
      exact ⟨fun hh => hq hh.symm, by simpa [mapKeys] using hrest⟩

theorem mapErase_of_lookup_none {α : Type} (m : List (String × α)) (p : String)
    (h : mapLookup m p = none) : mapErase m p = m := by
  induction m with
  | nil => rfl
  | cons e rest ih =>
    obtain ⟨q, u⟩ := e
    by_cases hq : q = p
    · simp [hq] at h
    · simp only [mapLookup_cons, if_neg hq] at h
      rw [mapErase_cons, if_neg hq, ih h]

theorem mem_keys_mapSet {α : Type} (m : List (String × α)) (p q : String) (v : α) :
    q ∈ mapKeys (mapSet m p v) ↔ q ∈ mapKeys m ∨ q = p := by
  induction m with
  | nil => simp [mapSet, mapKeys]
  | cons e rest ih =>
    obtain ⟨k, u⟩ := e
    by_cases hk : k = p
    · subst hk
      constructor
      · intro h
        rcases (by simpa [mapSet, mapKeys] using h) with h | h
        · exact Or.inr h
        · exact Or.inl (by simp [mapKeys, h])
      · intro h
        rcases h with h | h
        · rcases (by simpa [mapKeys] using h) with h | h
          · simp [mapSet, mapKeys, h]
          · simp [mapSet, mapKeys, h]
        · simp [mapSet, mapKeys, h]
    · simp only [mapSet, if_neg hk, mapKeys, List.map_cons, List.mem_cons]
      rw [show (mapSet rest p v).map Prod.fst = mapKeys (mapSet rest p v) from rfl]
      rw [show rest.map Prod.fst = mapKeys rest from rfl]
      rw [ih]
      tauto

theorem mapKeys_mapSet_nodup {α : Type} (m : List (String × α)) (p : String) (v : α)
    (h : (mapKeys m).Nodup) : (mapKeys (mapSet m p v)).Nodup := by
  induction m with
  | nil => simp [mapSet, mapKeys]
  | cons e rest ih =>
    obtain ⟨k, u⟩ := e
    simp only [mapKeys, List.map_cons, List.nodup_cons] at h
    by_cases hk : k = p
    · subst hk
      simpa [mapSet, mapKeys, List.nodup_cons] using h
    · simp only [mapSet, if_neg hk, mapKeys, List.map_cons, List.nodup_cons]
      refine ⟨?_, ih h.2⟩
      intro hmem
      rcases (mem_keys_mapSet rest p k v).mp (by simpa [mapKeys] using hmem) with hh | hh
      · exact h.1 (by simpa [mapKeys] using hh)
      · exact hk hh

/-! ## The multi-instance `ProxySandbox` (src/src/sandbox/proxySandbox.ts) -/

/-- A window object: string keys bound to property descriptors. -/
abbrev WinObj := List (String × PropDesc)

/-- `Object.prototype.hasOwnProperty.call(obj, p)`. -/
def hasOwnProperty (w : WinObj) (p : String) : Bool :=
  (mapLookup w p).isSome

/-- Reading `obj[p]`: the stored value, `undefined` when absent (function
rebinding by `getTargetValue` is the identity on these values). -/
def rawGetValue (w : WinObj) (p : String) : JSVal :=
  match mapLookup w p with
  | some d => d.value
  | none => JSVal.undefined

/-- Plain JS assignment `obj[p] = v` on a data property: updates the value
of an existing writable property keeping its attributes, creates a
`(writable, enumerable, configurable) = (true, true, true)` data property
when `p` is absent, and has no effect on a non-writable property. -/
def objAssign (w : WinObj) (p : String) (v : JSVal) : WinObj :=
  match mapLookup w p with
  | some d => if d.writable then mapSet w p { d with value := v } else w
  | none => mapSet w p ⟨v, true, true, true, false⟩

/-- `variableWhiteList` from proxySandbox.ts; the development-only
`variableWhiteListInDev` entries are empty outside development builds,
which is the configuration modelled here. -/
def variableWhiteList : List String := ["System", "__cjsWrapper"]

/-- The mutable per-instance fields of a `ProxySandbox`.  The shared
`rawWindow` is threaded separately because all instances alias it. -/
structure ProxySandboxState where
  fakeWindow : WinObj
  updatedValueSet : List String
  latestSetProp : Option String
  sandboxRunning : Bool
  deriving DecidableEq, Repr

/-- A freshly constructed `ProxySandbox` whose `createFakeWindow` copy is
`fw` (the non-configurable properties of the raw window at construction
time). -/
def ProxySandbox.mk0 (fw : WinObj) : ProxySandboxState :=
  { fakeWindow := fw, updatedValueSet := [], latestSetProp := none, sandboxRunning := true }

/-- `Set.add`: append when absent (JS `Set` keeps insertion order). -/
def setAdd (l : List String) (p : String) : List String :=
  if p ∈ l then l else l ++ [p]

/-- Outcome of the proxy `set` trap: the (possibly updated) shared window,
the updated sandbox instance, and the trap's boolean result. -/
structure SetOutcome where
  rawWindow : WinObj
  sandbox : ProxySandboxState
  result : Bool
  deriving DecidableEq, Repr

/-- The `set` trap of `ProxySandbox` (proxySandbox.ts lines 186-228).
While running: a key owned by the raw window but not yet by `fakeWindow`
has its descriptor attributes copied into `fakeWindow` together with the
new value, but only when the raw descriptor's `writable` field is truthy;
any other key is written by plain assignment into `fakeWindow`; a
`variableWhiteList` key is additionally assigned onto the raw window; the
key is recorded in `updatedValueSet` and becomes `latestSetProp`.  While
not running the trap is a no-op that still answers `true` (returning
`false` would raise a `TypeError` under strict-mode Proxy semantics). -/
def proxySandboxSet (raw : WinObj) (s : ProxySandboxState) (p : String) (v : JSVal) :
    SetOutcome :=
  if s.sandboxRunning then
    let fw :=
      if ¬ hasOwnProperty s.fakeWindow p ∧ hasOwnProperty raw p then
        match mapLookup raw p with
        | some d =>
          if d.writable then
            mapSet s.fakeWindow p
              { value := v, writable := d.writable, enumerable := d.enumerable,
                configurable := d.configurable, hasGetter := false }
          else s.fakeWindow
        | none => s.fakeWindow
      else objAssign s.fakeWindow p v
    let raw' := if p ∈ variableWhiteList then objAssign raw p v else raw
    { rawWindow := raw',
      sandbox :=
        { fakeWindow := fw,
          updatedValueSet := setAdd s.updatedValueSet p,
          latestSetProp := some p,
          sandboxRunning := true },
      result := true }
  else
    { rawWindow := raw, sandbox := s, result := true }

/-- What the `get` trap returns.  `facade` is the proxy object itself;
`mergedHasOwnProperty`, `realDocument` and `realEval` stand for the
closure merging both windows' `hasOwnProperty`, the real `document` and
the real `eval`; `value v` is an ordinary value read. -/
inductive GetResult where
  | facade
  | mergedHasOwnProperty
  | realDocument
  | realEval
  | value (v : JSVal)
  deriving DecidableEq, Repr

/-- The `get` trap of `ProxySandbox` (proxySandbox.ts lines 231-289) for a
string key.  `isTopFrame` is `rawWindow === rawWindow.parent`; `pwg` is
the sandbox's `propertiesWithGetter` key set built by `createFakeWindow`.
The `Symbol.unscopables` branch cannot fire for string keys, and the
`setCurrentRunningSandboxProxy` marking plus its `nextTask` clearing are
side effects that no claim about the returned value depends on, so they
are omitted here. -/
def proxySandboxGet (raw : WinObj) (isTopFrame : Bool) (pwg : List String)
    (s : ProxySandboxState) (p : String) : GetResult :=
  if p = "window" ∨ p = "self" then .facade
  else if p = "globalThis" then .facade
  else if p = "top" ∨ p = "parent" then
    if isTopFrame then .facade else .value (rawGetValue raw p)
  else if p = "hasOwnProperty" then .mergedHasOwnProperty
  else if p = "document" then .realDocument
  else if p = "eval" then .realEval
  else
    .value
      (if p ∈ pwg then rawGetValue raw p
       else if hasOwnProperty s.fakeWindow p then rawGetValue s.fakeWindow p
       else rawGetValue raw p)

/-- The `deleteProperty` trap of `ProxySandbox` (proxySandbox.ts lines
344-354): when `fakeWindow` owns the key it is deleted there and removed
from `updatedValueSet`; the raw window is never touched; the trap answers
`true` in every case. -/
def proxySandboxDelete (raw : WinObj) (s : ProxySandboxState) (p : String) :
    SetOutcome :=
  if hasOwnProperty s.fakeWindow p then
    { rawWindow := raw,
      sandbox :=
        { s with
          fakeWindow := mapErase s.fakeWindow p,
          updatedValueSet := s.updatedValueSet.filter (fun q => ¬ q = p) },
      result := true }
  else
    { rawWindow := raw, sandbox := s, result := true }

/-! ## Claims about the `ProxySandbox` traps -/

/-- C2: for every `ProxySandbox` whose `sandboxRunning` flag is `false`,
the `set` trap answers `true` (so strict-mode Proxy semantics raise no
`TypeError`) and changes nothing: the overlay `fakeWindow`, the ownership
set `updatedValueSet`, `latestSetProp` and the shared raw window are all
exactly as before the write. -/
theorem inactive_set_silent_drop (raw : WinObj) (s : ProxySandboxState) (p : String)
    (v : JSVal) (h : s.sandboxRunning = false) :
    proxySandboxSet raw s p v = { rawWindow := raw, sandbox := s, result := true } := by
  simp [proxySandboxSet, h]

/-- Witness for `inactive_set_silent_drop` at a concrete inactive sandbox. -/
theorem inactive_set_silent_drop_witness :
    proxySandboxSet [("foo", ⟨JSVal.num 3, true, true, true, false⟩)]
        { fakeWindow := [], updatedValueSet := ["bar"], latestSetProp := some "bar",
          sandboxRunning := false } "foo" (JSVal.num 7) =
      { rawWindow := [("foo", ⟨JSVal.num 3, true, true, true, false⟩)],
        sandbox := { fakeWindow := [], updatedValueSet := ["bar"],
                     latestSetProp := some "bar", sandboxRunning := false },
        result := true } :=
  inactive_set_silent_drop _ _ "foo" (JSVal.num 7) rfl

/-- C4: on every `ProxySandbox` facade, reading `window`, `self` or
`globalThis` yields the facade itself, never the shared window; reading
`top` or `parent` yields the facade exactly when the raw window is its
own parent (`rawWindow === rawWindow.parent`), and otherwise the raw
window's own `top` / `parent` value. -/
theorem proxy_get_self_reference (raw : WinObj) (isTopFrame : Bool) (pwg : List String)
    (s : ProxySandboxState) :
    proxySandboxGet raw isTopFrame pwg s "window" = GetResult.facade ∧
    proxySandboxGet raw isTopFrame pwg s "self" = GetResult.facade ∧
    proxySandboxGet raw isTopFrame pwg s "globalThis" = GetResult.facade ∧
    proxySandboxGet raw isTopFrame pwg s "top" =
      (if isTopFrame then GetResult.facade else GetResult.value (rawGetValue raw "top")) ∧
    proxySandboxGet raw isTopFrame pwg s "parent" =
      (if isTopFrame then GetResult.facade
       else GetResult.value (rawGetValue raw "parent")) := by
  refine ⟨rfl, rfl, rfl, ?_, ?_⟩ <;> cases isTopFrame <;> rfl

/-- C10: the `deleteProperty` trap removes the key only from the overlay
and (when the overlay owned it) from the ownership set, never changes the
shared raw window, and answers `true` for every key — including keys the
overlay does not own at all. -/
theorem delete_trap_frame (raw : WinObj) (s : ProxySandboxState) (p : String) :
    (proxySandboxDelete raw s p).rawWindow = raw ∧
    (proxySandboxDelete raw s p).result = true ∧
    (proxySandboxDelete raw s p).sandbox.fakeWindow = mapErase s.fakeWindow p ∧
    (proxySandboxDelete raw s p).sandbox.updatedValueSet =
      (if hasOwnProperty s.fakeWindow p then
        s.updatedValueSet.filter (fun q => ¬ q = p)
      else s.updatedValueSet) ∧
    (proxySandboxDelete raw s p).sandbox.latestSetProp = s.latestSetProp ∧
    (proxySandboxDelete raw s p).sandbox.sandboxRunning = s.sandboxRunning := by
  by_cases h : hasOwnProperty s.fakeWindow p
  · simp [proxySandboxDelete, h]
  · have hnone : mapLookup s.fakeWindow p = none := by
      have hl : ¬ (mapLookup s.fakeWindow p).isSome = true := by
        simpa [hasOwnProperty] using h
      exact Option.not_isSome_iff_eq_none.mp hl
    simp [proxySandboxDelete, h, mapErase_of_lookup_none _ _ hnone]

theorem mem_setAdd_self (l : List String) (p : String) : p ∈ setAdd l p := by
  by_cases h : p ∈ l <;> simp [setAdd, h]

/-- The keys the `get` trap answers specially before falling through to
the overlay / raw-window value resolution. -/
def specialGetKeys : List String :=
  ["window", "self", "globalThis", "top", "parent", "hasOwnProperty", "document", "eval"]

/-- C1 (counterexample): the claim quantifies over every key outside the
module-loader allow-list, but the `get` trap short-circuits the
self-referential keys before consulting either window.  Concretely,
`globalThis` is not in the allow-list and is absent from a fresh
sandbox's overlay, yet after another active sandbox writes it the read
through this facade returns the facade itself, not the shared window's
value of `globalThis`. -/
theorem proxy_isolation_counterexample :
    "globalThis" ∉ variableWhiteList ∧
    (proxySandboxSet [] (ProxySandbox.mk0 []) "globalThis" (JSVal.num 1)).rawWindow = [] ∧
    mapLookup (ProxySandbox.mk0 []).fakeWindow "globalThis" = none ∧
    proxySandboxGet [] true [] (ProxySandbox.mk0 []) "globalThis" ≠
      GetResult.value (rawGetValue [] "globalThis") := by
  decide

/-- C1 (amended): for every key `p` outside the allow-list **and outside
the facade's specially-trapped keys**, a write through one active
sandbox's facade leaves the shared raw window entirely unchanged, and a
read of `p` through any sandbox whose overlay does not own `p` yields the
shared raw window's value of `p`. -/
theorem proxy_isolation_amended (raw : WinObj) (sA sB : ProxySandboxState)
    (isTopFrame : Bool) (pwg : List String) (p : String) (v : JSVal)
    (hwl : p ∉ variableWhiteList) (hsp : p ∉ specialGetKeys)
    (hrun : sA.sandboxRunning = true)
    (hB : mapLookup sB.fakeWindow p = none) :
    (proxySandboxSet raw sA p v).rawWindow = raw ∧
    proxySandboxGet raw isTopFrame pwg sB p = GetResult.value (rawGetValue raw p) := by
  constructor
  · simp [proxySandboxSet, hrun, hwl]
  · have h1 : ¬ (p = "window" ∨ p = "self") := by
      intro h
      rcases h with h | h <;> simp [specialGetKeys, h] at hsp
    have h2 : ¬ p = "globalThis" := by intro h; simp [specialGetKeys, h] at hsp
    have h3 : ¬ (p = "top" ∨ p = "parent") := by
      intro h
      rcases h with h | h <;> simp [specialGetKeys, h] at hsp
    have h4 : ¬ p = "hasOwnProperty" := by intro h; simp [specialGetKeys, h] at hsp
    have h5 : ¬ p = "document" := by intro h; simp [specialGetKeys, h] at hsp
    have h6 : ¬ p = "eval" := by intro h; simp [specialGetKeys, h] at hsp
    have hBown : hasOwnProperty sB.fakeWindow p = false := by
      simp [hasOwnProperty, hB]
    by_cases hpwg : p ∈ pwg <;>
      simp [proxySandboxGet, h1, h2, h3, h4, h5, h6, hpwg, hBown]

/-- Witness for `proxy_isolation_amended`: sandbox A writes `foo = 1`;
the shared window stays empty and a fresh sandbox B reads `undefined`. -/
theorem proxy_isolation_amended_witness :
    (proxySandboxSet [] (ProxySandbox.mk0 []) "foo" (JSVal.num 1)).rawWindow = [] ∧
    proxySandboxGet [] true [] (ProxySandbox.mk0 []) "foo" =
      GetResult.value (rawGetValue [] "foo") :=
  proxy_isolation_amended [] (ProxySandbox.mk0 []) (ProxySandbox.mk0 []) true [] "foo"
    (JSVal.num 1) (by decide) (by decide) rfl rfl

/-- C3 (counterexample): the descriptor copy into the overlay is guarded
by the raw descriptor's `writable` flag.  For a key owned by the raw
window with a non-writable (here configurable) descriptor, an active
facade write leaves the overlay without the key entirely — the new value
is never applied to the overlay — although the key is still recorded in
`updatedValueSet` and as `latestSetProp`. -/
theorem set_nonwritable_counterexample :
    (mapLookup ([("k", ⟨JSVal.num 0, false, true, true, false⟩)] : WinObj) "k").isSome ∧
    mapLookup (ProxySandbox.mk0 []).fakeWindow "k" = none ∧
    (proxySandboxSet [("k", ⟨JSVal.num 0, false, true, true, false⟩)]
        (ProxySandbox.mk0 []) "k" (JSVal.num 1)).sandbox.fakeWindow = [] ∧
    (proxySandboxSet [("k", ⟨JSVal.num 0, false, true, true, false⟩)]
        (ProxySandbox.mk0 []) "k" (JSVal.num 1)).sandbox.updatedValueSet = ["k"] := by
  decide

/-- C3 (amended): in an active `ProxySandbox`, a set of a key `p` absent
from the overlay behaves as follows: when the shared window owns `p` with
a **writable** descriptor, its `writable` / `enumerable` / `configurable`
attributes are copied into the overlay together with the new value; when
the shared window owns `p` with a non-writable descriptor the overlay is
left unchanged; when neither object owns `p` the value is written
straight into the overlay with the default `(true, true, true)`
attributes.  In every case `p` is added to `updatedValueSet` and becomes
`latestSetProp`. -/
theorem set_trap_copy_descriptor_amended (raw : WinObj) (s : ProxySandboxState)
    (p : String) (v : JSVal) (hrun : s.sandboxRunning = true)
    (hfw : mapLookup s.fakeWindow p = none) :
    (∀ d : PropDesc, mapLookup raw p = some d → d.writable = true →
      mapLookup (proxySandboxSet raw s p v).sandbox.fakeWindow p =
        some ⟨v, d.writable, d.enumerable, d.configurable, false⟩) ∧
    (∀ d : PropDesc, mapLookup raw p = some d → d.writable = false →
      (proxySandboxSet raw s p v).sandbox.fakeWindow = s.fakeWindow) ∧
    (mapLookup raw p = none →
      mapLookup (proxySandboxSet raw s p v).sandbox.fakeWindow p =
        some ⟨v, true, true, true, false⟩) ∧
    p ∈ (proxySandboxSet raw s p v).sandbox.updatedValueSet ∧
    (proxySandboxSet raw s p v).sandbox.latestSetProp = some p := by
  have hfwOwn : hasOwnProperty s.fakeWindow p = false := by simp [hasOwnProperty, hfw]
  refine ⟨?_, ?_, ?_, ?_, ?_⟩
  · intro d hd hw
    simp [proxySandboxSet, hrun, hfw, hasOwnProperty, hd, hw, mapLookup_mapSet_self]
  · intro d hd hw
    simp [proxySandboxSet, hrun, hfw, hasOwnProperty, hd, hw]
  · intro hd
    simp [proxySandboxSet, hrun, hfwOwn, hasOwnProperty, hd, objAssign, hfw,
      mapLookup_mapSet_self]
  · simp [proxySandboxSet, hrun, mem_setAdd_self]
  · simp [proxySandboxSet, hrun]

/-- Witness for `set_trap_copy_descriptor_amended`: the raw window owns
`title` writable and non-enumerable; an active facade write copies the
attributes into the overlay with the new value, records the key and
updates `latestSetProp`. -/
theorem set_trap_copy_descriptor_amended_witness :
    mapLookup (proxySandboxSet [("title", ⟨JSVal.str "a", true, false, true, false⟩)]
        (ProxySandbox.mk0 []) "title" (JSVal.str "b")).sandbox.fakeWindow "title" =
      some ⟨JSVal.str "b", true, false, true, false⟩ ∧
    "title" ∈ (proxySandboxSet [("title", ⟨JSVal.str "a", true, false, true, false⟩)]
        (ProxySandbox.mk0 []) "title" (JSVal.str "b")).sandbox.updatedValueSet ∧
    (proxySandboxSet [("title", ⟨JSVal.str "a", true, false, true, false⟩)]
        (ProxySandbox.mk0 []) "title" (JSVal.str "b")).sandbox.latestSetProp =
      some "title" := by
  have h := set_trap_copy_descriptor_amended
    [("title", ⟨JSVal.str "a", true, false, true, false⟩)] (ProxySandbox.mk0 [])
    "title" (JSVal.str "b") rfl rfl
  exact ⟨h.1 _ rfl rfl, h.2.2.2.1, h.2.2.2.2⟩

/-! ## The legacy `SingularProxySandbox` (proxySandbox.ts lines 367-529) -/

/-- `isPropConfigurable`: a missing descriptor counts as configurable. -/
def isPropConfigurable (w : WinObj) (p : String) : Bool :=
  match mapLookup w p with
  | some d => d.configurable
  | none => true

/-- `setWindowProp(prop, value, toDelete)`: delete the key when the value
is `undefined` and `toDelete` is truthy; otherwise, when the key is
configurable (string keys only — the `typeof prop !== 'symbol'` test is
always true here), redefine it `writable: true, configurable: true`
(keeping `enumerable` of an existing property, `false` for a fresh one,
as `Object.defineProperty` does) and assign the value. -/
def setWindowProp (w : WinObj) (p : String) (v : JSVal) (toDelete : Bool) : WinObj :=
  if v = JSVal.undefined ∧ toDelete then mapErase w p
  else if isPropConfigurable w p then
    match mapLookup w p with
    | some d =>
      mapSet w p
        { value := v, writable := true, enumerable := d.enumerable,
          configurable := true, hasGetter := false }
    | none =>
      mapSet w p
        { value := v, writable := true, enumerable := false,
          configurable := true, hasGetter := false }
  else w

/-- The effect of `setWindowProp` on its own key, as a function of the
key's previous binding. -/
def setWindowPropAt (cur : Option PropDesc) (v : JSVal) (toDelete : Bool) :
    Option PropDesc :=
  if v = JSVal.undefined ∧ toDelete then none
  else
    match cur with
    | some d =>
      if d.configurable then
        some { value := v, writable := true, enumerable := d.enumerable,
               configurable := true, hasGetter := false }
      else some d
    | none =>
      some { value := v, writable := true, enumerable := false,
             configurable := true, hasGetter := false }

theorem setWindowProp_lookup_self (w : WinObj) (p : String) (v : JSVal) (td : Bool) :
    mapLookup (setWindowProp w p v td) p = setWindowPropAt (mapLookup w p) v td := by
  by_cases h1 : v = JSVal.undefined ∧ td = true
  · obtain ⟨hv, htd⟩ := h1
    subst hv; subst htd
    simp [setWindowProp, setWindowPropAt, mapLookup_mapErase_self]
  · cases hl : mapLookup w p with
    | none =>
      simp [setWindowProp, setWindowPropAt, isPropConfigurable, hl,
        mapLookup_mapSet_self, h1]
    | some d =>
      by_cases hc : d.configurable
      · simp [setWindowProp, setWindowPropAt, isPropConfigurable, hl, hc,
          mapLookup_mapSet_self, h1]
      · simp [setWindowProp, setWindowPropAt, isPropConfigurable, hl, hc, h1]

theorem setWindowProp_lookup_ne (w : WinObj) (p q : String) (v : JSVal) (td : Bool)
    (h : q ≠ p) : mapLookup (setWindowProp w p v td) q = mapLookup w q := by
  unfold setWindowProp
  by_cases h1 : v = JSVal.undefined ∧ td = true
  · simp only [h1, if_pos]
    exact mapLookup_mapErase_ne w p q h
  · by_cases hc : isPropConfigurable w p = true
    · cases hl : mapLookup w p <;>
        simp [h1, hc, hl, mapLookup_mapSet_ne _ _ _ _ h]
    · simp [h1, hc]

/-- A `Map.forEach` loop calling `setWindowProp(p, g v, toDelete)` on each
recorded entry (the shape of the restore loops in `active`/`inactive`). -/
def swpFold (g : JSVal → JSVal) (td : Bool) (w : WinObj)
    (m : List (String × JSVal)) : WinObj :=
  m.foldl (fun acc e => setWindowProp acc e.1 (g e.2) td) w

theorem swpFold_lookup_notin (g : JSVal → JSVal) (td : Bool) (m : List (String × JSVal))
    (w : WinObj) (p : String) (h : mapLookup m p = none) :
    mapLookup (swpFold g td w m) p = mapLookup w p := by
  induction m generalizing w with
  | nil => rfl
  | cons e rest ih =>
    obtain ⟨q, u⟩ := e
    by_cases hq : q = p
    · simp [hq] at h
    · simp only [mapLookup_cons, if_neg hq] at h
      have hne : p ≠ q := fun hh => hq hh.symm
      simp only [swpFold, List.foldl_cons]
      rw [show (List.foldl (fun acc e => setWindowProp acc e.1 (g e.2) td)
          (setWindowProp w q (g u) td) rest) =
        swpFold g td (setWindowProp w q (g u) td) rest from rfl]
      rw [ih _ h, setWindowProp_lookup_ne _ _ _ _ _ hne]

theorem swpFold_lookup_mem (g : JSVal → JSVal) (td : Bool) (m : List (String × JSVal))
    (w : WinObj) (p : String) (u : JSVal) (hnd : (mapKeys m).Nodup)
    (h : mapLookup m p = some u) :
    mapLookup (swpFold g td w m) p = setWindowPropAt (mapLookup w p) (g u) td := by
  induction m generalizing w with
  | nil => simp at h
  | cons e rest ih =>
    obtain ⟨q, u'⟩ := e
    simp only [mapKeys, List.map_cons, List.nodup_cons] at hnd
    simp only [swpFold, List.foldl_cons]
    rw [show (List.foldl (fun acc e => setWindowProp acc e.1 (g e.2) td)
        (setWindowProp w q (g u') td) rest) =
      swpFold g td (setWindowProp w q (g u') td) rest from rfl]
    by_cases hq : q = p
    · subst hq
      rw [mapLookup_cons, if_pos rfl] at h
      have hu : u' = u := by injection h
      subst hu
      have hrest : mapLookup rest q = none :=
        mapLookup_eq_none_of_not_mem_keys _ _ (by simpa [mapKeys] using hnd.1)
      rw [swpFold_lookup_notin _ _ _ _ _ hrest, setWindowProp_lookup_self]
    · simp only [mapLookup_cons, if_neg hq] at h
      rw [ih _ (by simpa [mapKeys] using hnd.2) h,
        setWindowProp_lookup_ne _ _ _ _ _ (fun hh => hq hh.symm)]

/-- The mutable fields of a `SingularProxySandbox`. -/
structure LegacyState where
  addedPropsMapInSandbox : List (String × JSVal)
  modifiedPropsOriginalValueMapInSandbox : List (String × JSVal)
  currentUpdatedPropsValueMap : List (String × JSVal)
  sandboxRunning : Bool
  latestSetProp : Option String
  deriving DecidableEq, Repr

/-- A freshly constructed `SingularProxySandbox`. -/
def LegacySandbox.mk0 : LegacyState :=
  { addedPropsMapInSandbox := [], modifiedPropsOriginalValueMapInSandbox := [],
    currentUpdatedPropsValueMap := [], sandboxRunning := true, latestSetProp := none }

/-- Outcome of the singular sandbox's `setTrap`. -/
structure LegacySetOutcome where
  rawWindow : WinObj
  sandbox : LegacyState
  result : Bool
  deriving DecidableEq, Repr

/-- `setTrap(p, value, originalValue, sync2Window)` of
`SingularProxySandbox`: while running, a key the raw window does not own
is recorded in `addedPropsMapInSandbox`; otherwise its pre-run original
value is recorded once in `modifiedPropsOriginalValueMapInSandbox`; the
key always enters `currentUpdatedPropsValueMap`; with `sync2Window` the
value is assigned onto the raw window; the key becomes `latestSetProp`.
While not running nothing changes and the trap still answers `true`. -/
def legacySetTrap (raw : WinObj) (s : LegacyState) (p : String)
    (v originalValue : JSVal) (sync2Window : Bool) : LegacySetOutcome :=
  if s.sandboxRunning then
    let added :=
      if ¬ hasOwnProperty raw p then mapSet s.addedPropsMapInSandbox p v
      else s.addedPropsMapInSandbox
    let modified :=
      if hasOwnProperty raw p ∧
          mapLookup s.modifiedPropsOriginalValueMapInSandbox p = none then
        mapSet s.modifiedPropsOriginalValueMapInSandbox p originalValue
      else s.modifiedPropsOriginalValueMapInSandbox
    let cur := mapSet s.currentUpdatedPropsValueMap p v
    let raw' := if sync2Window then objAssign raw p v else raw
    { rawWindow := raw',
      sandbox :=
        { addedPropsMapInSandbox := added,
          modifiedPropsOriginalValueMapInSandbox := modified,
          currentUpdatedPropsValueMap := cur,
          sandboxRunning := true,
          latestSetProp := some p },
      result := true }
  else
    { rawWindow := raw, sandbox := s, result := true }

/-- The singular sandbox's proxy `set` trap: reads the current raw-window
value as `originalValue` and calls `setTrap` with `sync2Window = true`. -/
def legacySet (raw : WinObj) (s : LegacyState) (p : String) (v : JSVal) :
    LegacySetOutcome :=
  legacySetTrap raw s p v (rawGetValue raw p) true

/-- `SingularProxySandbox.inactive()`: restore every modified key to its
recorded original via `setWindowProp`, then delete every added key via
`setWindowProp(p, undefined, true)`, then clear the running flag. -/
def legacyInactive (raw : WinObj) (s : LegacyState) : WinObj × LegacyState :=
  let raw1 := swpFold id false raw s.modifiedPropsOriginalValueMapInSandbox
  let raw2 := swpFold (fun _ => JSVal.undefined) true raw1 s.addedPropsMapInSandbox
  (raw2, { s with sandboxRunning := false })

/-- `SingularProxySandbox.active()`: when returning from inactive, replay
the continuously-updated current-value map onto the raw window, then set
the running flag. -/
def legacyActive (raw : WinObj) (s : LegacyState) : WinObj × LegacyState :=
  let raw' :=
    if ¬ s.sandboxRunning then swpFold id false raw s.currentUpdatedPropsValueMap
    else raw
  (raw', { s with sandboxRunning := true })

/-- A sequence of facade writes against a singular sandbox. -/
def legacyRun (raw : WinObj) (s : LegacyState) (ops : List (String × JSVal)) :
    WinObj × LegacyState :=
  ops.foldl
    (fun acc op =>
      ((legacySet acc.1 acc.2 op.1 op.2).rawWindow,
       (legacySet acc.1 acc.2 op.1 op.2).sandbox))
    (raw, s)

/-- `p` is written by some operation of the run. -/
def writtenIn (ops : List (String × JSVal)) (p : String) : Prop :=
  p ∈ ops.map Prod.fst

/-- The value a window holds at a key (`undefined` reads excluded by
`Option`; accessor subtleties do not arise for the keys tracked here). -/
def valueAt (w : WinObj) (p : String) : Option JSVal :=
  (mapLookup w p).map PropDesc.value

theorem legacyRun_cons (raw : WinObj) (s : LegacyState) (op : String × JSVal)
    (ops : List (String × JSVal)) :
    legacyRun raw s (op :: ops) =
      legacyRun (legacySet raw s op.1 op.2).rawWindow
        (legacySet raw s op.1 op.2).sandbox ops := rfl

theorem legacyRun_nil (raw : WinObj) (s : LegacyState) :
    legacyRun raw s [] = (raw, s) := rfl

theorem objAssign_lookup_ne (w : WinObj) (p q : String) (v : JSVal) (h : q ≠ p) :
    mapLookup (objAssign w p v) q = mapLookup w q := by
  unfold objAssign
  cases hl : mapLookup w p with
  | none => exact mapLookup_mapSet_ne w p q _ h
  | some d =>
    by_cases hw : d.writable = true
    · simp only [hw, if_pos]
      exact mapLookup_mapSet_ne w p q _ h
    · simp [hw]

theorem objAssign_lookup_some_writable (w : WinObj) (p : String) (v : JSVal)
    (d : PropDesc) (hd : mapLookup w p = some d) (hw : d.writable = true) :
    mapLookup (objAssign w p v) p = some { d with value := v } := by
  simp [objAssign, hd, hw, mapLookup_mapSet_self]

theorem objAssign_lookup_none (w : WinObj) (p : String) (v : JSVal)
    (hd : mapLookup w p = none) :
    mapLookup (objAssign w p v) p = some ⟨v, true, true, true, false⟩ := by
  simp [objAssign, hd, mapLookup_mapSet_self]

theorem mapLookup_ite_mapSet {α : Type} (c : Prop) [Decidable c]
    (m : List (String × α)) (q p : String) (v : α) (h : p ≠ q) :
    mapLookup (if c then mapSet m q v else m) p = mapLookup m p := by
  split
  · exact mapLookup_mapSet_ne m q p v h
  · rfl

/-- The three bookkeeping maps of a singular sandbox have duplicate-free
key lists (true of every JS `Map`). -/
def legacyMapsNodup (s : LegacyState) : Prop :=
  (mapKeys s.addedPropsMapInSandbox).Nodup ∧
  (mapKeys s.modifiedPropsOriginalValueMapInSandbox).Nodup ∧
  (mapKeys s.currentUpdatedPropsValueMap).Nodup

theorem legacySet_mapsNodup (raw : WinObj) (s : LegacyState) (p : String) (v : JSVal)
    (h : legacyMapsNodup s) : legacyMapsNodup (legacySet raw s p v).sandbox := by
  obtain ⟨h1, h2, h3⟩ := h
  by_cases hrun : s.sandboxRunning
  · refine ⟨?_, ?_, ?_⟩ <;> simp only [legacySet, legacySetTrap, hrun, if_pos]
    · split
      · exact mapKeys_mapSet_nodup _ _ _ h1
      · exact h1
    · split
      · exact mapKeys_mapSet_nodup _ _ _ h2
      · exact h2
    · exact mapKeys_mapSet_nodup _ _ _ h3
  · simpa [legacySet, legacySetTrap, hrun] using ⟨h1, h2, h3⟩

theorem legacyRun_mapsNodup (ops : List (String × JSVal)) (raw : WinObj)
    (s : LegacyState) (h : legacyMapsNodup s) :
    legacyMapsNodup (legacyRun raw s ops).2 := by
  induction ops generalizing raw s with
  | nil => exact h
  | cons op ops ih =>
    rw [legacyRun_cons]
    exact ih _ _ (legacySet_mapsNodup _ _ _ _ h)

/-- Pre-existing key `p` (raw descriptor `d0`) not yet written through the
facade: untracked, and the raw window still holds `d0`. -/
def legacyPreUntouched (p : String) (d0 : PropDesc) (raw : WinObj) (s : LegacyState) :
    Prop :=
  mapLookup s.modifiedPropsOriginalValueMapInSandbox p = none ∧
  mapLookup s.currentUpdatedPropsValueMap p = none ∧
  mapLookup raw p = some d0

/-- Pre-existing key `p` written through the facade at least once: the
original value is recorded, the current-value map holds the last written
value, and the raw window holds it too (descriptor attributes intact). -/
def legacyPreTouched (p : String) (d0 : PropDesc) (raw : WinObj) (s : LegacyState) :
    Prop :=
  ∃ vl, mapLookup s.modifiedPropsOriginalValueMapInSandbox p = some d0.value ∧
    mapLookup s.currentUpdatedPropsValueMap p = some vl ∧
    mapLookup raw p = some { d0 with value := vl }

/-- Run invariant for a pre-existing key. -/
def legacyPreInv (p : String) (d0 : PropDesc) (raw : WinObj) (s : LegacyState) : Prop :=
  s.sandboxRunning = true ∧
  mapLookup s.addedPropsMapInSandbox p = none ∧
  (legacyPreUntouched p d0 raw s ∨ legacyPreTouched p d0 raw s)

theorem legacySet_preInv (raw : WinObj) (s : LegacyState) (p q : String) (d0 : PropDesc)
    (v : JSVal) (hW : d0.writable = true) (h : legacyPreInv p d0 raw s) :
    legacyPreInv p d0 (legacySet raw s q v).rawWindow (legacySet raw s q v).sandbox ∧
    ((q = p ∨ legacyPreTouched p d0 raw s) →
      legacyPreTouched p d0 (legacySet raw s q v).rawWindow
        (legacySet raw s q v).sandbox) := by
  obtain ⟨hrun, hadd, hcase⟩ := h
  by_cases hq : q = p
  · subst hq
    have hrawown : ∃ dd, mapLookup raw q = some dd ∧ dd.writable = true ∧
        dd.value = (match hcase with | _ => dd.value) := by
      rcases hcase with hu | ht
      · exact ⟨d0, hu.2.2, hW, rfl⟩
      · obtain ⟨vl, _, _, hr⟩ := ht
        exact ⟨_, hr, by simpa using hW, rfl⟩
    obtain ⟨dd, hdd, hddw, -⟩ := hrawown
    have hown : hasOwnProperty raw q = true := by simp [hasOwnProperty, hdd]
    have htouch : legacyPreTouched q d0 (legacySet raw s q v).rawWindow
        (legacySet raw s q v).sandbox := by
      refine ⟨v, ?_, ?_, ?_⟩
      · rcases hcase with hu | ht
        · simp only [legacySet, legacySetTrap, hrun, if_pos]
          simp [hown, hu.1, mapLookup_mapSet_self, rawGetValue, hu.2.2]
        · obtain ⟨vl, hm, hc, hr⟩ := ht
          simp only [legacySet, legacySetTrap, hrun, if_pos]
          simp [hm]
      · simp only [legacySet, legacySetTrap, hrun, if_pos]
        simp [mapLookup_mapSet_self]
      · simp only [legacySet, legacySetTrap, hrun, if_pos, if_pos rfl]
        rcases hcase with hu | ht
        · exact objAssign_lookup_some_writable raw q v d0 hu.2.2 hW
        · obtain ⟨vl, hm, hc, hr⟩ := ht
          have := objAssign_lookup_some_writable raw q v _ hr (by simpa using hW)
          simpa using this
    refine ⟨⟨?_, ?_, Or.inr htouch⟩, fun _ => htouch⟩
    · simp [legacySet, legacySetTrap, hrun]
    · simp only [legacySet, legacySetTrap, hrun, if_pos, hown]
      simpa [hown] using hadd
  · have hne : p ≠ q := fun hh => hq hh.symm
    by_cases hrunb : s.sandboxRunning
    · have hadded : mapLookup (legacySet raw s q v).sandbox.addedPropsMapInSandbox p =
          mapLookup s.addedPropsMapInSandbox p := by
        simp only [legacySet, legacySetTrap, hrunb, if_pos]
        exact mapLookup_ite_mapSet _ _ _ _ _ hne
      have hmod : mapLookup
          (legacySet raw s q v).sandbox.modifiedPropsOriginalValueMapInSandbox p =
          mapLookup s.modifiedPropsOriginalValueMapInSandbox p := by
        simp only [legacySet, legacySetTrap, hrunb, if_pos]
        exact mapLookup_ite_mapSet _ _ _ _ _ hne
      have hcur : mapLookup (legacySet raw s q v).sandbox.currentUpdatedPropsValueMap p =
          mapLookup s.currentUpdatedPropsValueMap p := by
        simp only [legacySet, legacySetTrap, hrunb, if_pos]
        exact mapLookup_mapSet_ne _ _ _ _ hne
      have hraw : mapLookup (legacySet raw s q v).rawWindow p = mapLookup raw p := by
        simp only [legacySet, legacySetTrap, hrunb, if_pos]
        simpa using objAssign_lookup_ne raw q p v hne
      constructor
      · refine ⟨by simp [legacySet, legacySetTrap, hrunb], by rw [hadded]; exact hadd, ?_⟩
        rcases hcase with hu | ht
        · exact Or.inl ⟨by rw [hmod]; exact hu.1, by rw [hcur]; exact hu.2.1,
            by rw [hraw]; exact hu.2.2⟩
        · obtain ⟨vl, hm, hc, hr⟩ := ht
          exact Or.inr ⟨vl, by rw [hmod]; exact hm, by rw [hcur]; exact hc,
            by rw [hraw]; exact hr⟩
      · intro hcase2
        rcases hcase2 with hcase2 | hcase2
        · exact absurd hcase2 hq
        · obtain ⟨vl, hm, hc, hr⟩ := hcase2
          exact ⟨vl, by rw [hmod]; exact hm, by rw [hcur]; exact hc,
            by rw [hraw]; exact hr⟩
    · exact absurd hrun hrunb

theorem legacyRun_preInv (ops : List (String × JSVal)) (raw : WinObj) (s : LegacyState)
    (p : String) (d0 : PropDesc) (hW : d0.writable = true)
    (h : legacyPreInv p d0 raw s) :
    legacyPreInv p d0 (legacyRun raw s ops).1 (legacyRun raw s ops).2 ∧
    ((writtenIn ops p ∨ legacyPreTouched p d0 raw s) →
      legacyPreTouched p d0 (legacyRun raw s ops).1 (legacyRun raw s ops).2) := by
  induction ops generalizing raw s with
  | nil =>
    refine ⟨h, fun hc => ?_⟩
    rcases hc with hc | hc
    · simp [writtenIn] at hc
    · exact hc
  | cons op ops ih =>
    obtain ⟨q, v⟩ := op
    have hstep := legacySet_preInv raw s p q d0 v hW h
    rw [legacyRun_cons]
    refine ⟨(ih _ _ hstep.1).1, fun hc => ?_⟩
    rcases hc with hc | hc
    · have hc0 : p ∈ q :: List.map Prod.fst ops := hc
      rcases List.mem_cons.mp hc0 with hqp | hrest
      · exact (ih _ _ hstep.1).2 (Or.inr (hstep.2 (Or.inl hqp.symm)))
      · exact (ih _ _ hstep.1).2 (Or.inl hrest)
    · exact (ih _ _ hstep.1).2 (Or.inr (hstep.2 (Or.inr hc)))

/-- Key `p` absent from the raw window and never written: untracked. -/
def legacyNewAbsent (p : String) (raw : WinObj) (s : LegacyState) : Prop :=
  mapLookup s.addedPropsMapInSandbox p = none ∧
  mapLookup s.currentUpdatedPropsValueMap p = none ∧
  mapLookup raw p = none

/-- Key `p` absent from the raw window pre-run but written at least once:
recorded as added, current value tracked, and present on the raw window
with the default data-property attributes left by plain assignment. -/
def legacyNewTouched (p : String) (raw : WinObj) (s : LegacyState) : Prop :=
  ∃ vf vl, mapLookup s.addedPropsMapInSandbox p = some vf ∧
    mapLookup s.currentUpdatedPropsValueMap p = some vl ∧
    mapLookup raw p = some ⟨vl, true, true, true, false⟩

/-- Run invariant for a key the raw window did not own pre-run. -/
def legacyNewInv (p : String) (raw : WinObj) (s : LegacyState) : Prop :=
  s.sandboxRunning = true ∧
  (legacyNewAbsent p raw s ∨ legacyNewTouched p raw s)

theorem legacySet_newInv (raw : WinObj) (s : LegacyState) (p q : String) (v : JSVal)
    (h : legacyNewInv p raw s) :
    legacyNewInv p (legacySet raw s q v).rawWindow (legacySet raw s q v).sandbox ∧
    ((q = p ∨ legacyNewTouched p raw s) →
      legacyNewTouched p (legacySet raw s q v).rawWindow
        (legacySet raw s q v).sandbox) := by
  obtain ⟨hrun, hcase⟩ := h
  by_cases hq : q = p
  · subst hq
    have htouch : legacyNewTouched q (legacySet raw s q v).rawWindow
        (legacySet raw s q v).sandbox := by
      rcases hcase with ha | ht
      · have hown : hasOwnProperty raw q = false := by simp [hasOwnProperty, ha.2.2]
        refine ⟨v, v, ?_, ?_, ?_⟩
        · simp only [legacySet, legacySetTrap, hrun, if_pos]
          simp [hown, mapLookup_mapSet_self]
        · simp only [legacySet, legacySetTrap, hrun, if_pos]
          simp [mapLookup_mapSet_self]
        · simp only [legacySet, legacySetTrap, hrun, if_pos]
          simpa using objAssign_lookup_none raw q v ha.2.2
      · obtain ⟨vf, vl, hah, hch, hrh⟩ := ht
        have hown : hasOwnProperty raw q = true := by simp [hasOwnProperty, hrh]
        refine ⟨vf, v, ?_, ?_, ?_⟩
        · simp only [legacySet, legacySetTrap, hrun, if_pos]
          simp [hown, hah]
        · simp only [legacySet, legacySetTrap, hrun, if_pos]
          simp [mapLookup_mapSet_self]
        · simp only [legacySet, legacySetTrap, hrun, if_pos]
          simpa using objAssign_lookup_some_writable raw q v _ hrh rfl
    exact ⟨⟨by simp [legacySet, legacySetTrap, hrun], Or.inr htouch⟩, fun _ => htouch⟩
  · have hne : p ≠ q := fun hh => hq hh.symm
    have hadded : mapLookup (legacySet raw s q v).sandbox.addedPropsMapInSandbox p =
        mapLookup s.addedPropsMapInSandbox p := by
      simp only [legacySet, legacySetTrap, hrun, if_pos]
      exact mapLookup_ite_mapSet _ _ _ _ _ hne
    have hcur : mapLookup (legacySet raw s q v).sandbox.currentUpdatedPropsValueMap p =
        mapLookup s.currentUpdatedPropsValueMap p := by
      simp only [legacySet, legacySetTrap, hrun, if_pos]
      exact mapLookup_mapSet_ne _ _ _ _ hne
    have hraw : mapLookup (legacySet raw s q v).rawWindow p = mapLookup raw p := by
      simp only [legacySet, legacySetTrap, hrun, if_pos]
      simpa using objAssign_lookup_ne raw q p v hne
    constructor
    · refine ⟨by simp [legacySet, legacySetTrap, hrun], ?_⟩
      rcases hcase with ha | ht
      · exact Or.inl ⟨by rw [hadded]; exact ha.1, by rw [hcur]; exact ha.2.1,
          by rw [hraw]; exact ha.2.2⟩
      · obtain ⟨vf, vl, hah, hch, hrh⟩ := ht
        exact Or.inr ⟨vf, vl, by rw [hadded]; exact hah, by rw [hcur]; exact hch,
          by rw [hraw]; exact hrh⟩
    · intro hc
      rcases hc with hc | hc
      · exact absurd hc hq
      · obtain ⟨vf, vl, hah, hch, hrh⟩ := hc
        exact ⟨vf, vl, by rw [hadded]; exact hah, by rw [hcur]; exact hch,
          by rw [hraw]; exact hrh⟩

theorem legacyRun_newInv (ops : List (String × JSVal)) (raw : WinObj) (s : LegacyState)
    (p : String) (h : legacyNewInv p raw s) :
    legacyNewInv p (legacyRun raw s ops).1 (legacyRun raw s ops).2 ∧
    ((writtenIn ops p ∨ legacyNewTouched p raw s) →
      legacyNewTouched p (legacyRun raw s ops).1 (legacyRun raw s ops).2) := by
  induction ops generalizing raw s with
  | nil =>
    refine ⟨h, fun hc => ?_⟩
    rcases hc with hc | hc
    · simp [writtenIn] at hc
    · exact hc
  | cons op ops ih =>
    obtain ⟨q, v⟩ := op
    have hstep := legacySet_newInv raw s p q v h
    rw [legacyRun_cons]
    refine ⟨(ih _ _ hstep.1).1, fun hc => ?_⟩
    rcases hc with hc | hc
    · have hc0 : p ∈ q :: List.map Prod.fst ops := hc
      rcases List.mem_cons.mp hc0 with hqp | hrest
      · exact (ih _ _ hstep.1).2 (Or.inr (hstep.2 (Or.inl hqp.symm)))
      · exact (ih _ _ hstep.1).2 (Or.inl hrest)
    · exact (ih _ _ hstep.1).2 (Or.inr (hstep.2 (Or.inr hc)))

/-- C5 (counterexample): the restore loop of `inactive()` runs through
`setWindowProp`, which silently skips keys whose raw-window descriptor is
non-configurable.  With `k` writable but non-configurable and original
value `0`, an active-run write `k := 1` is recorded with original `0`,
yet after `inactive()` the shared window still holds `1`, not the
recorded pre-run original — contradicting the claim that `inactive()`
restores every pre-existing modified key. -/
theorem legacy_restore_counterexample :
    mapLookup (legacyRun [("k", ⟨JSVal.num 0, true, true, false, false⟩)]
        LegacySandbox.mk0
        [("k", JSVal.num 1)]).2.modifiedPropsOriginalValueMapInSandbox "k" =
      some (JSVal.num 0) ∧
    valueAt (legacyInactive
        (legacyRun [("k", ⟨JSVal.num 0, true, true, false, false⟩)]
          LegacySandbox.mk0 [("k", JSVal.num 1)]).1
        (legacyRun [("k", ⟨JSVal.num 0, true, true, false, false⟩)]
          LegacySandbox.mk0 [("k", JSVal.num 1)]).2).1 "k" = some (JSVal.num 1) ∧
    some (JSVal.num 1) ≠ some (JSVal.num 0) := by
  decide

/-- C5 (amended): for every sequence of facade writes against a fresh
active `SingularProxySandbox`: (a) `inactive()` restores every pre-run
key that the shared window holds as a writable **and configurable** data
property, and that was written during the run, to its recorded pre-run
original value (a non-configurable key instead keeps its last written
value); (b) `inactive()` deletes from the shared window every key added
during the run; and (c) a subsequent `active()` replays the
continuously-updated current-value map, so every tracked key again holds
exactly the value it had at the moment the preceding `inactive()` was
invoked.  (Writability of pre-run keys is assumed because the trap's
write-through assignment only succeeds on writable data properties.) -/
theorem legacy_roundtrip_amended (raw0 : WinObj) (ops : List (String × JSVal))
    (p : String) :
    (∀ d0 : PropDesc, mapLookup raw0 p = some d0 → d0.writable = true →
      writtenIn ops p →
      ((d0.configurable = true →
        valueAt (legacyInactive (legacyRun raw0 LegacySandbox.mk0 ops).1
          (legacyRun raw0 LegacySandbox.mk0 ops).2).1 p = some d0.value) ∧
       valueAt (legacyActive
          (legacyInactive (legacyRun raw0 LegacySandbox.mk0 ops).1
            (legacyRun raw0 LegacySandbox.mk0 ops).2).1
          (legacyInactive (legacyRun raw0 LegacySandbox.mk0 ops).1
            (legacyRun raw0 LegacySandbox.mk0 ops).2).2).1 p =
        valueAt (legacyRun raw0 LegacySandbox.mk0 ops).1 p)) ∧
    (mapLookup raw0 p = none → writtenIn ops p →
      (mapLookup (legacyInactive (legacyRun raw0 LegacySandbox.mk0 ops).1
          (legacyRun raw0 LegacySandbox.mk0 ops).2).1 p = none ∧
       valueAt (legacyActive
          (legacyInactive (legacyRun raw0 LegacySandbox.mk0 ops).1
            (legacyRun raw0 LegacySandbox.mk0 ops).2).1
          (legacyInactive (legacyRun raw0 LegacySandbox.mk0 ops).1
            (legacyRun raw0 LegacySandbox.mk0 ops).2).2).1 p =
        valueAt (legacyRun raw0 LegacySandbox.mk0 ops).1 p)) := by
  have hnd : legacyMapsNodup (legacyRun raw0 LegacySandbox.mk0 ops).2 :=
    legacyRun_mapsNodup ops raw0 LegacySandbox.mk0
      ⟨by simp [LegacySandbox.mk0, mapKeys], by simp [LegacySandbox.mk0, mapKeys],
       by simp [LegacySandbox.mk0, mapKeys]⟩
  constructor
  · intro d0 hd0 hW hwr
    have hInv0 : legacyPreInv p d0 raw0 LegacySandbox.mk0 :=
      ⟨rfl, rfl, Or.inl ⟨rfl, rfl, hd0⟩⟩
    have hrunInv := legacyRun_preInv ops raw0 LegacySandbox.mk0 p d0 hW hInv0
    have hadd : mapLookup
        (legacyRun raw0 LegacySandbox.mk0 ops).2.addedPropsMapInSandbox p = none :=
      hrunInv.1.2.1
    obtain ⟨vl, hm, hc, hr⟩ := hrunInv.2 (Or.inl hwr)
    have hW2 : mapLookup (legacyInactive (legacyRun raw0 LegacySandbox.mk0 ops).1
        (legacyRun raw0 LegacySandbox.mk0 ops).2).1 p =
        setWindowPropAt (some { d0 with value := vl }) d0.value false := by
      show mapLookup (swpFold (fun _ => JSVal.undefined) true
        (swpFold id false (legacyRun raw0 LegacySandbox.mk0 ops).1
          (legacyRun raw0 LegacySandbox.mk0 ops).2.modifiedPropsOriginalValueMapInSandbox)
        (legacyRun raw0 LegacySandbox.mk0 ops).2.addedPropsMapInSandbox) p = _
      rw [swpFold_lookup_notin _ _ _ _ _ hadd,
        swpFold_lookup_mem _ _ _ _ _ _ hnd.2.1 hm, hr]
      rfl
    have hW2at : setWindowPropAt (some { d0 with value := vl }) d0.value false =
        (if d0.configurable then
          some { value := d0.value, writable := true, enumerable := d0.enumerable,
                 configurable := true, hasGetter := false }
        else some { d0 with value := vl }) := by
      simp [setWindowPropAt]
    have hS2run : (legacyInactive (legacyRun raw0 LegacySandbox.mk0 ops).1
        (legacyRun raw0 LegacySandbox.mk0 ops).2).2.sandboxRunning = false := rfl
    have hS2cur : (legacyInactive (legacyRun raw0 LegacySandbox.mk0 ops).1
        (legacyRun raw0 LegacySandbox.mk0 ops).2).2.currentUpdatedPropsValueMap =
        (legacyRun raw0 LegacySandbox.mk0 ops).2.currentUpdatedPropsValueMap := rfl
    have hW3 : mapLookup (legacyActive
        (legacyInactive (legacyRun raw0 LegacySandbox.mk0 ops).1
          (legacyRun raw0 LegacySandbox.mk0 ops).2).1
        (legacyInactive (legacyRun raw0 LegacySandbox.mk0 ops).1
          (legacyRun raw0 LegacySandbox.mk0 ops).2).2).1 p =
        setWindowPropAt (mapLookup (legacyInactive
          (legacyRun raw0 LegacySandbox.mk0 ops).1
          (legacyRun raw0 LegacySandbox.mk0 ops).2).1 p) vl false := by
      have hact : (legacyActive
          (legacyInactive (legacyRun raw0 LegacySandbox.mk0 ops).1
            (legacyRun raw0 LegacySandbox.mk0 ops).2).1
          (legacyInactive (legacyRun raw0 LegacySandbox.mk0 ops).1
            (legacyRun raw0 LegacySandbox.mk0 ops).2).2).1 =
          swpFold id false
            (legacyInactive (legacyRun raw0 LegacySandbox.mk0 ops).1
              (legacyRun raw0 LegacySandbox.mk0 ops).2).1
            (legacyRun raw0 LegacySandbox.mk0 ops).2.currentUpdatedPropsValueMap := by
        simp [legacyActive, hS2run, hS2cur]
      rw [hact]
      simpa using swpFold_lookup_mem id false _ _ _ _ hnd.2.2 hc
    constructor
    · intro hcfg
      rw [valueAt, hW2, hW2at, if_pos hcfg]
      rfl
    · rw [valueAt, hW3, hW2, hW2at]
      by_cases hcfg : d0.configurable = true
      · simp [hcfg, setWindowPropAt, valueAt, hr]
      · simp [hcfg, setWindowPropAt, valueAt, hr]
  · intro hnone hwr
    have hInv0 : legacyNewInv p raw0 LegacySandbox.mk0 :=
      ⟨rfl, Or.inl ⟨rfl, rfl, hnone⟩⟩
    have hrunInv := legacyRun_newInv ops raw0 LegacySandbox.mk0 p hInv0
    obtain ⟨vf, vl, hah, hch, hrh⟩ := hrunInv.2 (Or.inl hwr)
    have hW2 : mapLookup (legacyInactive (legacyRun raw0 LegacySandbox.mk0 ops).1
        (legacyRun raw0 LegacySandbox.mk0 ops).2).1 p = none := by
      show mapLookup (swpFold (fun _ => JSVal.undefined) true
        (swpFold id false (legacyRun raw0 LegacySandbox.mk0 ops).1
          (legacyRun raw0 LegacySandbox.mk0 ops).2.modifiedPropsOriginalValueMapInSandbox)
        (legacyRun raw0 LegacySandbox.mk0 ops).2.addedPropsMapInSandbox) p = none
      rw [swpFold_lookup_mem _ _ _ _ _ _ hnd.1 hah]
      simp [setWindowPropAt]
    have hS2run : (legacyInactive (legacyRun raw0 LegacySandbox.mk0 ops).1
        (legacyRun raw0 LegacySandbox.mk0 ops).2).2.sandboxRunning = false := rfl
    have hW3 : mapLookup (legacyActive
        (legacyInactive (legacyRun raw0 LegacySandbox.mk0 ops).1
          (legacyRun raw0 LegacySandbox.mk0 ops).2).1
        (legacyInactive (legacyRun raw0 LegacySandbox.mk0 ops).1
          (legacyRun raw0 LegacySandbox.mk0 ops).2).2).1 p =
        setWindowPropAt (mapLookup (legacyInactive
          (legacyRun raw0 LegacySandbox.mk0 ops).1
          (legacyRun raw0 LegacySandbox.mk0 ops).2).1 p) vl false := by
      have hact : (legacyActive
          (legacyInactive (legacyRun raw0 LegacySandbox.mk0 ops).1
            (legacyRun raw0 LegacySandbox.mk0 ops).2).1
          (legacyInactive (legacyRun raw0 LegacySandbox.mk0 ops).1
            (legacyRun raw0 LegacySandbox.mk0 ops).2).2).1 =
          swpFold id false
            (legacyInactive (legacyRun raw0 LegacySandbox.mk0 ops).1
              (legacyRun raw0 LegacySandbox.mk0 ops).2).1
            (legacyRun raw0 LegacySandbox.mk0 ops).2.currentUpdatedPropsValueMap := by
        rw [legacyActive, hS2run]
        rfl
      rw [hact]
      simpa using swpFold_lookup_mem id false _ _ _ _ hnd.2.2 hch
    refine ⟨hW2, ?_⟩
    rw [valueAt, hW3, hW2]
    simp [setWindowPropAt, valueAt, hrh]

/-- Witness for `legacy_roundtrip_amended`: pre-existing writable
configurable key `a` (original `5`) written twice, fresh key `b` written
once.  After `inactive()` the window holds `a = 5` and no `b`; after
`active()` both keys hold what they held at the moment of `inactive()`. -/
theorem legacy_roundtrip_amended_witness :
    valueAt (legacyInactive
        (legacyRun [("a", ⟨JSVal.num 5, true, true, true, false⟩)] LegacySandbox.mk0
          [("a", JSVal.num 7), ("b", JSVal.num 9), ("a", JSVal.num 8)]).1
        (legacyRun [("a", ⟨JSVal.num 5, true, true, true, false⟩)] LegacySandbox.mk0
          [("a", JSVal.num 7), ("b", JSVal.num 9), ("a", JSVal.num 8)]).2).1 "a" =
      some (JSVal.num 5) ∧
    mapLookup (legacyInactive
        (legacyRun [("a", ⟨JSVal.num 5, true, true, true, false⟩)] LegacySandbox.mk0
          [("a", JSVal.num 7), ("b", JSVal.num 9), ("a", JSVal.num 8)]).1
        (legacyRun [("a", ⟨JSVal.num 5, true, true, true, false⟩)] LegacySandbox.mk0
          [("a", JSVal.num 7), ("b", JSVal.num 9), ("a", JSVal.num 8)]).2).1 "b" =
      none ∧
    valueAt (legacyActive
        (legacyInactive
          (legacyRun [("a", ⟨JSVal.num 5, true, true, true, false⟩)] LegacySandbox.mk0
            [("a", JSVal.num 7), ("b", JSVal.num 9), ("a", JSVal.num 8)]).1
          (legacyRun [("a", ⟨JSVal.num 5, true, true, true, false⟩)] LegacySandbox.mk0
            [("a", JSVal.num 7), ("b", JSVal.num 9), ("a", JSVal.num 8)]).2).1
        (legacyInactive
          (legacyRun [("a", ⟨JSVal.num 5, true, true, true, false⟩)] LegacySandbox.mk0
            [("a", JSVal.num 7), ("b", JSVal.num 9), ("a", JSVal.num 8)]).1
          (legacyRun [("a", ⟨JSVal.num 5, true, true, true, false⟩)] LegacySandbox.mk0
            [("a", JSVal.num 7), ("b", JSVal.num 9), ("a", JSVal.num 8)]).2).2).1 "a" =
      valueAt (legacyRun [("a", ⟨JSVal.num 5, true, true, true, false⟩)]
        LegacySandbox.mk0
        [("a", JSVal.num 7), ("b", JSVal.num 9), ("a", JSVal.num 8)]).1 "a" := by
  have ha := legacy_roundtrip_amended
    [("a", ⟨JSVal.num 5, true, true, true, false⟩)]
    [("a", JSVal.num 7), ("b", JSVal.num 9), ("a", JSVal.num 8)] "a"
  have hb := legacy_roundtrip_amended
    [("a", ⟨JSVal.num 5, true, true, true, false⟩)]
    [("a", JSVal.num 7), ("b", JSVal.num 9), ("a", JSVal.num 8)] "b"
  have ha1 := ha.1 ⟨JSVal.num 5, true, true, true, false⟩ rfl rfl (by simp [writtenIn])
  have hb1 := hb.2 rfl (by simp [writtenIn])
  exact ⟨ha1.1 rfl, hb1.1, ha1.2⟩

/-! ## `createSandboxContainer` (src/src/sandbox/index.ts) -/

/-- Observable steps of the container's `mount`/`unmount`.  Freers and
Rebuilders are identified by numeric tokens; `rebuild r` is the
invocation of the stored Rebuilder `r`. -/
inductive ContainerEvent where
  | sandboxActive
  | rebuild (r : Nat)
  | installMountingPatches
  | freeCall (f : Nat)
  | sandboxInactive
  deriving DecidableEq, Repr

/-- The container closure's mutable state: the bootstrap-phase Freers
fixed at creation, the current mount-phase Freers, and the Rebuilders
stored by the last `unmount`. -/
structure SandboxContainerState where
  bootstrappingFreers : List Nat
  mountingFreers : List Nat
  sideEffectsRebuilders : List Nat
  deriving DecidableEq, Repr

/-- `mount()`: activate the sandbox; split the stored Rebuilders at
`bootstrappingFreers.length` (`slice(0, n)` / `slice(n)`); run the
bootstrap-phase Rebuilders; install the mount-phase patches (yielding the
new `mountingFreers`); run the mount-phase Rebuilders; clear the stored
Rebuilder list.  Returns the new state and the ordered event trace. -/
def containerMount (newMountingFreers : List Nat) (s : SandboxContainerState) :
    SandboxContainerState × List ContainerEvent :=
  let atBootstrapping := s.sideEffectsRebuilders.take s.bootstrappingFreers.length
  let atMounting := s.sideEffectsRebuilders.drop s.bootstrappingFreers.length
  ({ s with mountingFreers := newMountingFreers, sideEffectsRebuilders := [] },
   [ContainerEvent.sandboxActive] ++ atBootstrapping.map ContainerEvent.rebuild ++
     [ContainerEvent.installMountingPatches] ++ atMounting.map ContainerEvent.rebuild)

/-- `unmount()`: invoke every Freer — bootstrap-phase ones first, then
mount-phase ones — storing the returned Rebuilders in that order
(`freeRebuilder` maps a Freer to the Rebuilder it returns), then
deactivate the sandbox. -/
def containerUnmount (freeRebuilder : Nat → Nat) (s : SandboxContainerState) :
    SandboxContainerState × List ContainerEvent :=
  ({ s with sideEffectsRebuilders :=
      (s.bootstrappingFreers ++ s.mountingFreers).map freeRebuilder },
   (s.bootstrappingFreers ++ s.mountingFreers).map ContainerEvent.freeCall ++
     [ContainerEvent.sandboxInactive])

/-- C6: a `mount()` after an `unmount()` that stored the `N` bootstrap
Freers' Rebuilders followed by the `M` mount-phase Freers' Rebuilders
performs, in order: `sandbox.active()`, the `N` bootstrap-derived
Rebuilders, installation of the mount-phase patches, the `M`
mount-derived Rebuilders — so every bootstrap Rebuilder runs strictly
before any mount Rebuilder — and finally resets the stored Rebuilder list
to empty. -/
theorem container_mount_rebuild_order (s : SandboxContainerState)
    (freeRebuilder : Nat → Nat) (newMountingFreers : List Nat) :
    (containerMount newMountingFreers (containerUnmount freeRebuilder s).1).2 =
      [ContainerEvent.sandboxActive] ++
        (s.bootstrappingFreers.map freeRebuilder).map ContainerEvent.rebuild ++
        [ContainerEvent.installMountingPatches] ++
        (s.mountingFreers.map freeRebuilder).map ContainerEvent.rebuild ∧
    (containerMount newMountingFreers
      (containerUnmount freeRebuilder s).1).1.sideEffectsRebuilders = [] := by
  constructor
  · simp only [containerUnmount, containerMount, List.map_append]
    have hlen : s.bootstrappingFreers.length =
        (s.bootstrappingFreers.map freeRebuilder).length := (List.length_map _ _).symm
    rw [hlen, List.take_left, List.drop_left]
  · rfl

/-! ## `patchStrictSandbox` (src/src/sandbox/patchers/dynamicAppend/forStrictSandbox.ts) -/

/-- The patcher module's process-wide state: whether
`Document.prototype.createElement` is currently the overwritten function,
how many times it has physically been overwritten, the same for the
head/body append/insert/remove prototype methods, and the two patch
counters.  Counters are `Int` because `free` decrements the mounting
counter unconditionally. -/
structure DynamicPatchState where
  createElementPatched : Bool
  createElementInstalls : Nat
  appendPatched : Bool
  appendInstalls : Nat
  bootstrappingPatchCount : Int
  mountingPatchCount : Int
  deriving DecidableEq, Repr

/-- Module state at process start. -/
def initialPatchState : DynamicPatchState :=
  { createElementPatched := false, createElementInstalls := 0,
    appendPatched := false, appendInstalls := 0,
    bootstrappingPatchCount := 0, mountingPatchCount := 0 }

/-- `patchDocumentCreateElement`: overwrite
`Document.prototype.createElement` only while it is still the raw
function. -/
def patchDocumentCreateElement (s : DynamicPatchState) : DynamicPatchState :=
  if s.createElementPatched then s
  else { s with createElementPatched := true,
                createElementInstalls := s.createElementInstalls + 1 }

/-- Modelled from the spec: `patchHTMLDynamicAppendPrototypeFunctions`
(sandbox/patchers/dynamicAppend/common.ts) is not part of the sources
under verification; per the spec, "the underlying interception is
installed once" — the head/body append/insert/remove prototype methods
are overwritten only while they are still the raw functions. -/
def patchHTMLDynamicAppendPrototypeFunctions (s : DynamicPatchState) :
    DynamicPatchState :=
  if s.appendPatched then s
  else { s with appendPatched := true, appendInstalls := s.appendInstalls + 1 }

/-- `patchStrictSandbox` (state part): install both interceptions (each a
no-op when already installed), then bump the bootstrapping counter when
`mounting` is false, the mounting counter when it is true. -/
def patchStrictSandbox (mounting : Bool) (s : DynamicPatchState) : DynamicPatchState :=
  let s1 := patchDocumentCreateElement s
  let s2 := patchHTMLDynamicAppendPrototypeFunctions s1
  if mounting then { s2 with mountingPatchCount := s2.mountingPatchCount + 1 }
  else { s2 with bootstrappingPatchCount := s2.bootstrappingPatchCount + 1 }

/-- The `free` closure returned by `patchStrictSandbox` (state part):
decrement the bootstrapping counter when it is non-zero and this Freer is
bootstrap-derived, decrement the mounting counter unconditionally when it
is mount-derived; when both counters are then zero, physically restore
both raw prototype functions. -/
def freeStrictSandbox (mounting : Bool) (s : DynamicPatchState) : DynamicPatchState :=
  let s1 :=
    if ¬ mounting ∧ s.bootstrappingPatchCount ≠ 0 then
      { s with bootstrappingPatchCount := s.bootstrappingPatchCount - 1 }
    else s
  let s2 :=
    if mounting then { s1 with mountingPatchCount := s1.mountingPatchCount - 1 }
    else s1
  if s2.mountingPatchCount = 0 ∧ s2.bootstrappingPatchCount = 0 then
    { s2 with createElementPatched := false, appendPatched := false }
  else s2

/-- Modelled from the spec: the `rebuild` closure returned by `free` runs
`rebuildCSSRules` (dynamicAppend/common.ts, not under verification) over
the recorded style/link elements; per the spec it "re-attaches any
style/link elements recorded by this application that are no longer
present under its mounting element".  Elements are numeric tokens; the
wrapper is its list of children, appended via `rawHeadAppendChild` when
`appWrapper.contains(stylesheetElement)` is false. -/
def rebuildStyleSheets (recorded : List Nat) (wrapper : List Nat) : List Nat :=
  recorded.foldl (fun acc el => if el ∈ acc then acc else acc ++ [el]) wrapper

/-- A sequence of `patchStrictSandbox` calls (one per invoking
application) applied to the initial module state. -/
def patchSeq (ms : List Bool) : DynamicPatchState :=
  ms.foldl (fun s m => patchStrictSandbox m s) initialPatchState

theorem patchStrictSandbox_installs_invariant (m : Bool) (s : DynamicPatchState)
    (h1 : s.createElementInstalls = (if s.createElementPatched then 1 else 0))
    (h2 : s.appendInstalls = (if s.appendPatched then 1 else 0)) :
    (patchStrictSandbox m s).createElementInstalls =
      (if (patchStrictSandbox m s).createElementPatched then 1 else 0) ∧
    (patchStrictSandbox m s).appendInstalls =
      (if (patchStrictSandbox m s).appendPatched then 1 else 0) := by
  cases hce : s.createElementPatched <;> cases hap : s.appendPatched <;>
    cases m <;>
    simp_all [patchStrictSandbox, patchDocumentCreateElement,
      patchHTMLDynamicAppendPrototypeFunctions]

theorem patchSeq_installs_invariant (ms : List Bool) :
    (patchSeq ms).createElementInstalls =
      (if (patchSeq ms).createElementPatched then 1 else 0) ∧
    (patchSeq ms).appendInstalls =
      (if (patchSeq ms).appendPatched then 1 else 0) := by
  have main : ∀ (ms : List Bool) (s : DynamicPatchState),
      s.createElementInstalls = (if s.createElementPatched then 1 else 0) →
      s.appendInstalls = (if s.appendPatched then 1 else 0) →
      (ms.foldl (fun s m => patchStrictSandbox m s) s).createElementInstalls =
        (if (ms.foldl (fun s m => patchStrictSandbox m s) s).createElementPatched
          then 1 else 0) ∧
      (ms.foldl (fun s m => patchStrictSandbox m s) s).appendInstalls =
        (if (ms.foldl (fun s m => patchStrictSandbox m s) s).appendPatched
          then 1 else 0) := by
    intro ms
    induction ms with
    | nil => intro s h1 h2; exact ⟨h1, h2⟩
    | cons m rest ih =>
      intro s h1 h2
      have hstep := patchStrictSandbox_installs_invariant m s h1 h2
      exact ih _ hstep.1 hstep.2
  exact main ms initialPatchState rfl rfl

theorem mem_rebuildStyleSheets (recorded wrapper : List Nat) (e : Nat) :
    (e ∈ recorded ∨ e ∈ wrapper) → e ∈ rebuildStyleSheets recorded wrapper := by
  have main : ∀ (recorded wrapper : List Nat),
      (∀ x, x ∈ wrapper → x ∈ rebuildStyleSheets recorded wrapper) ∧
      (∀ x, x ∈ recorded → x ∈ rebuildStyleSheets recorded wrapper) := by
    intro recorded
    induction recorded with
    | nil => intro wrapper; exact ⟨fun x hx => hx, fun x hx => by simp at hx⟩
    | cons el rest ih =>
      intro wrapper
      by_cases hel : el ∈ wrapper
      · constructor
        · intro x hx
          simpa [rebuildStyleSheets, hel] using (ih wrapper).1 x hx
        · intro x hx
          rcases List.mem_cons.mp hx with hx | hx
          · subst hx
            simpa [rebuildStyleSheets, hel] using (ih wrapper).1 x hel
          · simpa [rebuildStyleSheets, hel] using (ih wrapper).2 x hx
      · constructor
        · intro x hx
          have : x ∈ wrapper ++ [el] := by simp [hx]
          simpa [rebuildStyleSheets, hel] using (ih (wrapper ++ [el])).1 x this
        · intro x hx
          rcases List.mem_cons.mp hx with hx | hx
          · subst hx
            have : x ∈ wrapper ++ [x] := by simp
            simpa [rebuildStyleSheets, hel] using (ih (wrapper ++ [x])).1 x this
          · simpa [rebuildStyleSheets, hel] using (ih (wrapper ++ [el])).2 x hx
  intro h
  rcases h with h | h
  · exact (main recorded wrapper).2 e h
  · exact (main recorded wrapper).1 e h

/-- The full `free` closure: updates the module state and returns the
`rebuild` closure over this application's recorded style/link elements.
The rebuilder is produced on every invocation, whatever the counters. -/
def freeStrictSandboxFull (mounting : Bool) (recorded : List Nat)
    (s : DynamicPatchState) : DynamicPatchState × (List Nat → List Nat) :=
  (freeStrictSandbox mounting s, fun wrapper => rebuildStyleSheets recorded wrapper)

theorem freeStrictSandbox_unpatch (m : Bool) (s : DynamicPatchState) :
    ((freeStrictSandbox m s).createElementPatched = true ↔
      (s.createElementPatched = true ∧
        ¬((freeStrictSandbox m s).mountingPatchCount = 0 ∧
          (freeStrictSandbox m s).bootstrappingPatchCount = 0))) ∧
    ((freeStrictSandbox m s).appendPatched = true ↔
      (s.appendPatched = true ∧
        ¬((freeStrictSandbox m s).mountingPatchCount = 0 ∧
          (freeStrictSandbox m s).bootstrappingPatchCount = 0))) := by
  cases m with
  | true =>
    by_cases hc : s.mountingPatchCount - 1 = 0 ∧ s.bootstrappingPatchCount = 0 <;>
      simp [freeStrictSandbox, hc]
  | false =>
    by_cases hb : s.bootstrappingPatchCount = 0
    · by_cases hm : s.mountingPatchCount = 0 <;>
        simp [freeStrictSandbox, hb, hm]
    · by_cases hc : s.mountingPatchCount = 0 ∧ s.bootstrappingPatchCount - 1 = 0 <;>
        simp [freeStrictSandbox, hb, hc]

/-- C7: (a) however many applications call `patchStrictSandbox` starting
from the pristine module state, `Document.prototype.createElement` and
the append/insert/remove prototype methods are each physically
overwritten at most once; (b) a Freer leaves the interceptions installed
exactly while the post-decrement counters are not both zero — physical
restoration happens only when the bootstrapping and mounting patch
counters have both reached zero; (c) every Freer invocation, whatever the
counters, returns the Rebuilder over this application's recorded
style/link elements, and that Rebuilder makes every recorded element a
child of the wrapper, re-appending exactly those not already contained in
it. -/
theorem strict_sandbox_patch_refcount :
    (∀ ms : List Bool,
      (patchSeq ms).createElementInstalls ≤ 1 ∧ (patchSeq ms).appendInstalls ≤ 1) ∧
    (∀ (m : Bool) (s : DynamicPatchState),
      ((freeStrictSandbox m s).createElementPatched = true ↔
        (s.createElementPatched = true ∧
          ¬((freeStrictSandbox m s).mountingPatchCount = 0 ∧
            (freeStrictSandbox m s).bootstrappingPatchCount = 0))) ∧
      ((freeStrictSandbox m s).appendPatched = true ↔
        (s.appendPatched = true ∧
          ¬((freeStrictSandbox m s).mountingPatchCount = 0 ∧
            (freeStrictSandbox m s).bootstrappingPatchCount = 0)))) ∧
    (∀ (m : Bool) (recorded : List Nat) (s : DynamicPatchState) (wrapper : List Nat),
      (freeStrictSandboxFull m recorded s).2 wrapper =
        rebuildStyleSheets recorded wrapper ∧
      (∀ e, e ∈ recorded → e ∈ (freeStrictSandboxFull m recorded s).2 wrapper) ∧
      (∀ e, e ∈ wrapper → e ∈ (freeStrictSandboxFull m recorded s).2 wrapper)) := by
  refine ⟨?_, freeStrictSandbox_unpatch, ?_⟩
  · intro ms
    have h := patchSeq_installs_invariant ms
    constructor
    · rw [h.1]; split <;> omega
    · rw [h.2]; split <;> omega
  · intro m recorded s wrapper
    refine ⟨rfl, ?_, ?_⟩
    · intro e he
      exact mem_rebuildStyleSheets recorded wrapper e (Or.inl he)
    · intro e he
      exact mem_rebuildStyleSheets recorded wrapper e (Or.inr he)

/-- Witness for `strict_sandbox_patch_refcount`: three applications patch
(one bootstrap, two mount) yet each interception is installed once; a
mount Freer applied at counters `(1, 1)` leaves the patches installed; a
Freer's Rebuilder re-appends the recorded element `2` into a wrapper that
holds only `3`. -/
theorem strict_sandbox_patch_refcount_witness :
    ((patchSeq [false, true, true]).createElementInstalls ≤ 1 ∧
      (patchSeq [false, true, true]).appendInstalls ≤ 1) ∧
    (freeStrictSandbox true (patchSeq [false, true, true])).createElementPatched =
      true ∧
    2 ∈ (freeStrictSandboxFull true [2, 3]
        (patchSeq [false, true, true])).2 [3] ∧
    3 ∈ (freeStrictSandboxFull true [2, 3]
        (patchSeq [false, true, true])).2 [3] := by
  have h := strict_sandbox_patch_refcount
  refine ⟨h.1 [false, true, true], ?_, ?_, ?_⟩
  · exact ((h.2.1 true (patchSeq [false, true, true])).1).mpr (by decide)
  · exact (h.2.2 true [2, 3] (patchSeq [false, true, true]) [3]).2.1 2 (by decide)
  · exact (h.2.2 true [2, 3] (patchSeq [false, true, true]) [3]).2.2 3 (by decide)

/-! ## The loader (src/unnamed/part_001): `getAppWrapperGetter`, `getRender` -/

/-- `QiankunError` carries only its message here. -/
structure QiankunError where
  message : String
  deriving DecidableEq, Repr

/-- What the app-wrapper getter resolves to: a plain element or an
element's shadow root. -/
inductive WrapperElem where
  | elem (id : Nat)
  | shadowRootOf (id : Nat)
  deriving DecidableEq, Repr

/-- `assertElementExist(element, msg)`: throw a `QiankunError` with the
message when the element is absent. -/
def assertElementExist (element : Option Nat) (msg : String) :
    Except QiankunError Unit :=
  match element with
  | some _ => Except.ok ()
  | none => Except.error ⟨msg⟩

/-- The closure returned by `getAppWrapperGetter`, evaluated at one
invocation.  `legacyLookup` is the result of
`document.getElementById(getWrapperId(appInstanceId))`; `elementGetter`
is the injected mounting-element accessor.  In legacy-render mode the two
isolation-flag checks throw before any element resolution; otherwise the
element is resolved, asserted to exist, and returned (its shadow root
under strict style isolation with shadow-DOM support). -/
def getAppWrapperGetterRun (appName appInstanceId : String)
    (useLegacyRender strictStyleIsolation scopedCSS supportShadowDOM : Bool)
    (legacyLookup : Option Nat) (elementGetter : Option Nat) :
    Except QiankunError WrapperElem :=
  if useLegacyRender then
    if strictStyleIsolation then
      Except.error ⟨"strictStyleIsolation can not be used with legacy render!"⟩
    else if scopedCSS then
      Except.error ⟨"experimentalStyleIsolation can not be used with legacy render!"⟩
    else
      match legacyLookup with
      | some e => Except.ok (WrapperElem.elem e)
      | none =>
        Except.error ⟨"Wrapper element for " ++ appName ++ " with instance " ++
          appInstanceId ++ " is not existed!"⟩
  else
    match elementGetter with
    | none =>
      Except.error ⟨"Wrapper element for " ++ appName ++ " with instance " ++
        appInstanceId ++ " is not existed!"⟩
    | some e =>
      if strictStyleIsolation ∧ supportShadowDOM then
        Except.ok (WrapperElem.shadowRootOf e)
      else Except.ok (WrapperElem.elem e)

/-- C8: combining `strictStyleIsolation` or the scoped-CSS flag with the
legacy custom-render mode makes every wrapper-getter invocation fail
synchronously with the fixed configuration-misuse `QiankunError`, and the
failure is independent of both element lookups — no wrapper element
resolution proceeds under that configuration (and nothing retries it). -/
theorem legacy_render_isolation_config_error (appName appInstanceId : String)
    (strictStyleIsolation scopedCSS supportShadowDOM : Bool)
    (legacyLookup elementGetter : Option Nat)
    (hbad : strictStyleIsolation = true ∨ scopedCSS = true) :
    (strictStyleIsolation = true →
      getAppWrapperGetterRun appName appInstanceId true strictStyleIsolation scopedCSS
          supportShadowDOM legacyLookup elementGetter =
        Except.error ⟨"strictStyleIsolation can not be used with legacy render!"⟩) ∧
    (strictStyleIsolation = false → scopedCSS = true →
      getAppWrapperGetterRun appName appInstanceId true strictStyleIsolation scopedCSS
          supportShadowDOM legacyLookup elementGetter =
        Except.error
          ⟨"experimentalStyleIsolation can not be used with legacy render!"⟩) ∧
    (∀ legacyLookup2 elementGetter2 : Option Nat,
      getAppWrapperGetterRun appName appInstanceId true strictStyleIsolation scopedCSS
          supportShadowDOM legacyLookup elementGetter =
        getAppWrapperGetterRun appName appInstanceId true strictStyleIsolation scopedCSS
          supportShadowDOM legacyLookup2 elementGetter2) := by
  refine ⟨?_, ?_, ?_⟩
  · intro hs
    simp [getAppWrapperGetterRun, hs]
  · intro hs hc
    simp [getAppWrapperGetterRun, hs, hc]
  · intro l2 e2
    rcases hbad with hs | hc
    · simp [getAppWrapperGetterRun, hs]
    · by_cases hs : strictStyleIsolation = true <;>
        simp [getAppWrapperGetterRun, hs, hc]

/-- Witness for `legacy_render_isolation_config_error`: scoped CSS with a
legacy render throws the fixed error even though both lookups would have
succeeded. -/
theorem legacy_render_isolation_config_error_witness :
    getAppWrapperGetterRun "app" "app_1" true false true true (some 1) (some 2) =
      Except.error
        ⟨"experimentalStyleIsolation can not be used with legacy render!"⟩ :=
  (legacy_render_isolation_config_error "app" "app_1" false true true (some 1) (some 2)
    (Or.inr rfl)).2.1 rfl rfl

/-- The lifecycle phase the render call is issued in. -/
inductive LifecyclePhase where
  | loading
  | mounting
  | mounted
  | unmounted
  deriving DecidableEq, Repr

/-- The phase name as interpolated into the error message. -/
def phaseStr : LifecyclePhase → String
  | .loading => "loading"
  | .mounting => "mounting"
  | .mounted => "mounted"
  | .unmounted => "unmounted"

/-- The message built by `getRender`'s `errorMsg` switch for a missing
container (the `unmounted` line is the switch's unreachable default). -/
def renderErrorMsg (appName container : String) (phase : LifecyclePhase) : String :=
  match phase with
  | .loading =>
    "Target container with " ++ container ++ " not existed while " ++ appName ++
      " " ++ phaseStr LifecyclePhase.loading ++ "!"
  | .mounting =>
    "Target container with " ++ container ++ " not existed while " ++ appName ++
      " " ++ phaseStr LifecyclePhase.mounting ++ "!"
  | .mounted =>
    "Target container with " ++ container ++ " not existed after " ++ appName ++
      " " ++ phaseStr LifecyclePhase.mounted ++ "!"
  | .unmounted =>
    "Target container with " ++ container ++ " not existed while " ++ appName ++
      " rendering!"

/-- `containerElement.contains(element)` (`contains(null)` is false). -/
def domContains (dom : List Nat) (element : Option Nat) : Bool :=
  match element with
  | some e => e ∈ dom
  | none => false

/-- The render closure built by `getRender`, for one invocation.
`legacyRender` selects the deprecated custom-render path (which never
inspects the container); otherwise the resolved container (`none` when
`getContainer` finds nothing) is asserted to exist outside the
`unmounted` phase, and when present is cleared and the app element
appended unless already contained. -/
def renderRun (appName : String) (legacyRender : Bool) (container : String)
    (containerElement : Option (List Nat)) (element : Option Nat)
    (phase : LifecyclePhase) : Except QiankunError (Option (List Nat)) :=
  if legacyRender then Except.ok containerElement
  else
    match containerElement with
    | none =>
      if phase ≠ LifecyclePhase.unmounted then
        Except.error ⟨renderErrorMsg appName container phase⟩
      else Except.ok none
    | some dom =>
      Except.ok (some (if domContains dom element then dom
        else match element with
          | some e => [e]
          | none => []))

/-- C9: with no legacy render configured, a render whose target container
cannot be resolved throws the fatal `QiankunError` naming the owning
application and the lifecycle phase in every phase except `unmounted`,
where the missing container is tolerated and the call succeeds. -/
theorem render_container_missing_error (appName container : String)
    (element : Option Nat) (phase : LifecyclePhase) :
    (phase ≠ LifecyclePhase.unmounted →
      renderRun appName false container none element phase =
        Except.error ⟨renderErrorMsg appName container phase⟩) ∧
    renderRun appName false container none element LifecyclePhase.unmounted =
      Except.ok none ∧
    (phase ≠ LifecyclePhase.unmounted →
      ∃ before mid after : String,
        renderErrorMsg appName container phase =
          before ++ appName ++ mid ++ phaseStr phase ++ after) := by
  refine ⟨?_, ?_, ?_⟩
  · intro h
    simp [renderRun, h]
  · simp [renderRun]
  · intro h
    cases phase with
    | loading =>
      exact ⟨"Target container with " ++ container ++ " not existed while ", " ", "!",
        rfl⟩
    | mounting =>
      exact ⟨"Target container with " ++ container ++ " not existed while ", " ", "!",
        rfl⟩
    | mounted =>
      exact ⟨"Target container with " ++ container ++ " not existed after ", " ", "!",
        rfl⟩
    | unmounted => exact absurd rfl h

/-- Witness for `render_container_missing_error`: app `app` mounting into
an unresolvable container `#root` throws the phase-naming error, and the
same situation in the `unmounted` phase succeeds. -/
theorem render_container_missing_error_witness :
    renderRun "app" false "#root" none none LifecyclePhase.mounting =
      Except.error
        ⟨"Target container with #root not existed while app mounting!"⟩ ∧
    renderRun "app" false "#root" none none LifecyclePhase.unmounted =
      Except.ok none := by
  have h := render_container_missing_error "app" "#root" none LifecyclePhase.mounting
  exact ⟨h.1 (by decide), h.2.1⟩
